import Mathlib

/-!
Weekly Challenge Tracker — verification of the frontend client and the
spec-described backend contracts

The repository ships two revisions of the React client
(`src/frontend/src/App.tsx`, v1.0.0, and `src/unnamed/part_000`, v1.1.0).
The state and API logic of the two revisions is textually identical; the
primary definitions below embed that shared logic (they are stated once and
the v1.0.0 revision is embedded separately in namespace `V100` for the
equivalence theorem).  The backend (FastAPI service) is not part of the
repository sources; where a claim depends on backend behaviour, the backend
operation is modelled from the specification and marked as such in its doc
comment.

Strings typed by the user (note text, titles) are modelled as `List Char` so
that JavaScript's `String.prototype.trim` and truthiness tests can be embedded
faithfully; dates are modelled as integer day numbers since the Unix epoch
(1970-01-01, a Thursday).
-/

namespace WeeklyChallenges

/-- The `Challenge` record as received from the API
(interface `Challenge` in both App revisions). -/
structure Challenge where
  id : Nat
  title : List Char
  is_active : Bool
  week_start_date : Int
  created_at : Nat
deriving DecidableEq, Repr

/-- The `DailyEntry` record as received from the API
(interface `DailyEntry` in both App revisions).
`difficulty` is `number | null`, `note` is `string | null`. -/
structure DailyEntry where
  id : Nat
  challenge_id : Nat
  day_index : Int
  completed : Bool
  difficulty : Option Int
  note : Option (List Char)
  created_at : Nat
deriving DecidableEq, Repr

/-- The constant `dayNames = ['Mon', 'Tue', 'Wed', 'Thu', 'Fri', 'Sat', 'Sun']`. -/
def dayNames : List String := ["Mon", "Tue", "Wed", "Thu", "Fri", "Sat", "Sun"]

/-- The lookup `dailyEntries.find(e => e.day_index === index)` — the per-slot lookup used
by the day-grid render and by `openEditDay`. -/
def findEntry (entries : List DailyEntry) (i : Int) : Option DailyEntry :=
  entries.find? (fun e => e.day_index = i)

/-- One slot of the composed 7-day grid: the day label, the grid index, and
either the entry found for that index or `none` (the explicit empty marker). -/
structure DaySlot where
  name : String
  index : Nat
  entry : Option DailyEntry
deriving DecidableEq, Repr

/-- The day-grid composition performed inline in the render:
`dayNames.map((day, index) => { const entry = dailyEntries.find(e => e.day_index === index); ... })`. -/
def composeWeek (entries : List DailyEntry) : List DaySlot :=
  dayNames.enum.map (fun p => ⟨p.2, p.1, findEntry entries (p.1 : Int)⟩)

/-- JavaScript truthiness of a nullable number (`entry?.difficulty ? ... : ...`):
`null` and `0` are falsy. -/
def truthyInt : Option Int → Bool
  | none => false
  | some n => n ≠ 0

/-- JavaScript truthiness of a nullable string (`entry?.note && ...`):
`null` and the empty string are falsy. -/
def truthyStr : Option (List Char) → Bool
  | none => false
  | some s => s ≠ []

/-- The icon displayed inside a day box: a green check, a difficulty emoji
(`difficultyEmojis[entry.difficulty]`), or the gray X. -/
inductive DayIcon where
  | check
  | emoji (level : Int)
  | xmark
deriving DecidableEq, Repr

/-- The observable visual state of one rendered day box:
whether the border is the completed (green) variant, which icon is shown, and
whether the note marker (the small `MessageSquare`) is shown. -/
structure DayVisual where
  borderGreen : Bool
  icon : DayIcon
  noteMarker : Bool
deriving DecidableEq, Repr

/-- The inline conditional render of one day box (both App revisions):
border class is `entry?.completed ? green : default`; the icon is a check when
`entry?.completed`, else the emoji when `entry?.difficulty` is truthy, else an
X; the note marker is shown when `entry?.note` is truthy. -/
def renderSlot (entry : Option DailyEntry) : DayVisual where
  borderGreen := (entry.map (fun e => e.completed)).getD false
  icon :=
    match entry with
    | none => .xmark
    | some e =>
      if e.completed then .check
      else if truthyInt e.difficulty then .emoji ((e.difficulty).getD 0)
      else .xmark
  noteMarker :=
    match entry with
    | none => false
    | some e => truthyStr e.note

/-! ## Client edit-form state and the day-upsert request (`openEditDay`,
`updateDayEntry`) -/

/-- JavaScript `x || d` on a nullable number: `null` and `0` fall through to
the default (used as `entry.difficulty || 1`). -/
def jsOrInt (x : Option Int) (d : Int) : Int :=
  match x with
  | none => d
  | some v => if v = 0 then d else v

/-- JavaScript `x || d` on a nullable string: `null` and `''` fall through to
the default (used as `entry.note || ''`). -/
def jsOrStr (x : Option (List Char)) (d : List Char) : List Char :=
  match x with
  | none => d
  | some v => if v = [] then d else v

/-- Whitespace as recognised by `String.prototype.trim` (modelled by the
standard whitespace predicate on characters). -/
def isJsSpace (c : Char) : Bool := c.isWhitespace

/-- JavaScript `s.trim()`: remove leading and trailing whitespace. -/
def trimList (cs : List Char) : List Char :=
  ((cs.dropWhile isJsSpace).reverse.dropWhile isJsSpace).reverse

/-- The edit-day dialog state: `editCompleted`, `editDifficulty`, `editNote`
(their `useState` hooks; initial values `false`, `1`, `''`). -/
structure EditFormState where
  editCompleted : Bool
  editDifficulty : Int
  editNote : List Char
deriving DecidableEq, Repr

/-- The initial values of the three edit-form `useState` hooks. -/
def initForm : EditFormState := ⟨false, 1, []⟩

/-- The handler `openEditDay(dayIndex)`: if an entry for the day exists, pre-load the form
from it (`entry.completed`, `entry.difficulty || 1`, `entry.note || ''`),
otherwise reset it to `(false, 1, '')`. -/
def openEditDay (entries : List DailyEntry) (dayIndex : Int) : EditFormState :=
  match findEntry entries dayIndex with
  | some e => ⟨e.completed, jsOrInt e.difficulty 1, jsOrStr e.note []⟩
  | none => initForm

/-- The JSON body `{ completed, difficulty, note }` of the PUT request issued
by `updateDayEntry`. On the wire both `difficulty` and `note` are nullable. -/
structure UpsertBody where
  completed : Bool
  difficulty : Option Int
  note : Option (List Char)
deriving DecidableEq, Repr

/-- The body built by `updateDayEntry`:
`{ completed: editCompleted, difficulty: editDifficulty, note: editNote.trim() || null }`. -/
def upsertBody (f : EditFormState) : UpsertBody where
  completed := f.editCompleted
  difficulty := some f.editDifficulty
  note := if trimList f.editNote = [] then none else some (trimList f.editNote)

/-- The five difficulty buttons are generated from the literal
`[1, 2, 3, 4, 5].map((level) => ... setEditDifficulty(level) ...)`. -/
def difficultyLevels : List Int := [1, 2, 3, 4, 5]

/-- The user events that mutate the edit-form state between two saves:
opening the dialog for a day, clicking one of the five difficulty buttons,
clicking Yes/No for completed, and typing in the note textarea. -/
inductive EditEvent where
  | openEdit (entries : List DailyEntry) (dayIndex : Int)
  | clickDifficulty (i : Fin 5)
  | clickCompleted (b : Bool)
  | typeNote (s : List Char)

/-- The effect of one edit-form event on the form state. -/
def editStep (f : EditFormState) : EditEvent → EditFormState
  | .openEdit entries dayIndex => openEditDay entries dayIndex
  | .clickDifficulty i => { f with editDifficulty := difficultyLevels.get ⟨i, by simp [difficultyLevels]⟩ }
  | .clickCompleted b => { f with editCompleted := b }
  | .typeNote s => { f with editNote := s }

/-- The edit-form state reached from the initial hook values after a sequence
of user events. -/
def runEdits (events : List EditEvent) : EditFormState :=
  events.foldl editStep initForm

/-! ## Challenge creation on the client (`createChallenge` handler) -/

/-- JavaScript `Date.prototype.getDay` on a day number (days since 1970-01-01, which was
a Thursday): 0 = Sunday, ..., 6 = Saturday. -/
def jsGetDay (d : Int) : Int := (d + 4) % 7

/-- The date computed by the client before posting a new challenge:
`monday.setDate(now.getDate() - now.getDay() + 1)`, i.e. shift the current
date by `1 - getDay()` days. -/
def clientMonday (d : Int) : Int := d - jsGetDay d + 1

/-- The Monday of the ISO week containing day `d` (ISO weeks run
Monday through Sunday; Monday has ISO weekday index 0 here). -/
def isoWeekMonday (d : Int) : Int := d - (d + 3) % 7

/-- The body `{ title, week_start_date }` of the POST /challenges request. -/
structure CreateChallengeBody where
  title : List Char
  week_start_date : Int
deriving DecidableEq, Repr

/-- The `createChallenge` form handler: `if (!newChallengeTitle.trim()) return;`
then POST `{ title: newChallengeTitle, week_start_date: monday.toISOString() }`.
Returns the request body issued, or `none` when the guard returns early. -/
def clientCreateChallenge (newChallengeTitle : List Char) (today : Int) :
    Option CreateChallengeBody :=
  if trimList newChallengeTitle = [] then none
  else some ⟨newChallengeTitle, clientMonday today⟩

/-! ## Fetch handlers and main view (`fetchCurrentChallenge`, render) -/

/-- The distinguishable failures of an `apiCall`: an HTTP error response
(e.g. a 404 for no active challenge) or a network error. -/
inductive ApiError where
  | notFound
  | httpError (status : Nat)
  | networkError
deriving DecidableEq, Repr

/-- The client state touched by `fetchCurrentChallenge`:
`currentChallenge` and `dailyEntries`. -/
structure ClientChallengeState where
  currentChallenge : Option Challenge
  dailyEntries : List DailyEntry
deriving DecidableEq, Repr

/-- The handler `fetchCurrentChallenge`: await GET /challenges/current, then await
GET /challenges/{id}/days; any failure is caught and resets the state to
`(null, [])`. The net state update is a function of the two call results. -/
def fetchCurrentChallengeUpdate (r1 : Except ApiError Challenge)
    (r2 : Challenge → Except ApiError (List DailyEntry)) : ClientChallengeState :=
  match r1 with
  | .error _ => ⟨none, []⟩
  | .ok c =>
    match r2 c with
    | .error _ => ⟨none, []⟩
    | .ok es => ⟨some c, es⟩

/-- What the main content area shows: the no-active-challenge placeholder or
the current-challenge view (`currentChallenge ? ... : "No active challenge"`). -/
inductive MainView where
  | noActiveChallenge
  | challengeView (c : Challenge)
deriving DecidableEq, Repr

/-- The top-level conditional of the signed-in render. -/
def renderMain (s : ClientChallengeState) : MainView :=
  match s.currentChallenge with
  | none => .noActiveChallenge
  | some c => .challengeView c

/-- The handler `updateDayEntry(dayIndex)`: `if (!currentChallenge) return;` then PUT
`/challenges/{currentChallenge.id}/days/{dayIndex}` with the body built from
the edit-form state. -/
structure UpsertRequest where
  challengeId : Nat
  dayIndex : Int
  body : UpsertBody
deriving DecidableEq, Repr

/-- The request issued by `updateDayEntry`, or `none` when no current
challenge is loaded (the early return). -/
def updateDayEntry (cur : Option Challenge) (f : EditFormState) (dayIndex : Int) :
    Option UpsertRequest :=
  match cur with
  | none => none
  | some c => some ⟨c.id, dayIndex, upsertBody f⟩

/-- The handler `fetchChallenges`: on success replace the `challenges` state with the
response; a failure is caught (logged) and leaves the state unchanged. -/
def fetchChallengesUpdate (old : List Challenge)
    (r : Except ApiError (List Challenge)) : List Challenge :=
  match r with
  | .ok cs => cs
  | .error _ => old

/-! ## Authentication handler and logout -/

/-- The `authMode` state: `'login' | 'register'`. -/
inductive AuthMode where
  | login
  | register
deriving DecidableEq, Repr

/-- The request built by `handleAuth`: register posts JSON
`{ email, password }` to `/register`; login posts form data
`{ username, password }` to `/token`. -/
inductive AuthRequest where
  | registerReq (email password : List Char)
  | tokenReq (username password : List Char)
deriving DecidableEq, Repr

/-- The branch of `handleAuth` selecting which request to issue. -/
def handleAuthRequest (mode : AuthMode) (email password : List Char) : AuthRequest :=
  match mode with
  | .register => .registerReq email password
  | .login => .tokenReq email password

/-- The client session state cleared by `handleLogout`. -/
structure SessionState where
  token : Option (List Char)
  currentChallenge : Option Challenge
  dailyEntries : List DailyEntry
  challenges : List Challenge
deriving DecidableEq, Repr

/-- The handler `handleLogout`: remove the token and reset challenge state. -/
def handleLogout (_s : SessionState) : SessionState :=
  ⟨none, none, [], []⟩

/-- The constant `APP_VERSION = "1.1.0"` (revision `src/unnamed/part_000`). -/
def appVersion : String := "1.1.0"

/-! ## Backend Challenge Lifecycle Manager (modelled from the spec)

The FastAPI backend is not part of the repository sources; only this React
client is. The definitions below model the backend contract stated in the
specification. -/

/-- The error taxonomy of the spec (§7). -/
inductive ServerError where
  | validationError
  | authenticationError
  | authorizationError
  | conflictError
  | notFound
deriving DecidableEq, Repr

/-- A challenge row as held by the backend store, with its owning user. -/
structure StoredChallenge where
  id : Nat
  user : Nat
  title : List Char
  active : Bool
  week_start_date : Int
  created_at : Nat
deriving DecidableEq, Repr

/-- The backend's challenge store (all users' challenges). -/
abbrev ChallengeStore := List StoredChallenge

/-- Flip the `active` flag of every challenge of user `u` to `false`. -/
def deactivateFor (u : Nat) (s : ChallengeStore) : ChallengeStore :=
  s.map (fun c => if c.user = u then { c with active := false } else c)

/-- Modelled from the spec: the backend operation
`createChallenge(user, title, weekStartDate) -> Challenge` (spec §4.1) is not
under the repository sources. Per the spec it fails with `ValidationError` if
the title is empty; on success it deactivates any previously active challenge
of the user and inserts the new challenge with `active = true`, as one atomic
step (spec §5 mandates the read–deactivate–insert to be a single atomic
unit). `cid` and `now` stand for the fresh id and the creation timestamp. -/
def createChallenge (u : Nat) (title : List Char) (weekStartDate : Int)
    (cid now : Nat) (s : ChallengeStore) :
    Except ServerError (StoredChallenge × ChallengeStore) :=
  if title = [] then .error .validationError
  else
    let newC : StoredChallenge := ⟨cid, u, title, true, weekStartDate, now⟩
    .ok (newC, newC :: deactivateFor u s)

/-- The backend states reachable from the empty store. Each successful
`createChallenge` is one atomic step (so an arbitrary interleaving of
concurrent calls is some sequence of these steps); a failed call and the
day-record operations (spec §4.2) leave the challenge store unchanged. -/
inductive Reachable : ChallengeStore → Prop where
  | init : Reachable []
  | create {u : Nat} {title : List Char} {wsd : Int} {cid now : Nat}
      {s : ChallengeStore} {c : StoredChallenge} {s' : ChallengeStore} :
      Reachable s → createChallenge u title wsd cid now s = .ok (c, s') →
      Reachable s'

/-- The challenges of user `u` carrying `active = true`. -/
def activeFor (u : Nat) (s : ChallengeStore) : List StoredChallenge :=
  s.filter (fun c => c.user == u && c.active)

/-! ## The v1.0.0 revision (`src/frontend/src/App.tsx`)

The same state and API logic, embedded separately from the v1.0.0 source for
the cross-revision equivalence theorem. -/

namespace V100

/-- The constant `APP_VERSION = "1.0.0"` (revision `src/frontend/src/App.tsx`). -/
def appVersion : String := "1.0.0"

/-- v1.0.0 `openEditDay`: identical logic to v1.1.0. -/
def openEditDay (entries : List DailyEntry) (dayIndex : Int) : EditFormState :=
  match entries.find? (fun e => e.day_index = dayIndex) with
  | some e => ⟨e.completed, jsOrInt e.difficulty 1, jsOrStr e.note []⟩
  | none => ⟨false, 1, []⟩

/-- v1.0.0 `updateDayEntry` request. -/
def updateDayEntry (cur : Option Challenge) (f : EditFormState) (dayIndex : Int) :
    Option UpsertRequest :=
  match cur with
  | none => none
  | some c =>
    some ⟨c.id, dayIndex,
      ⟨f.editCompleted, some f.editDifficulty,
        if trimList f.editNote = [] then none else some (trimList f.editNote)⟩⟩

/-- v1.0.0 `createChallenge` handler. -/
def clientCreateChallenge (newChallengeTitle : List Char) (today : Int) :
    Option CreateChallengeBody :=
  if trimList newChallengeTitle = [] then none
  else some ⟨newChallengeTitle, today - (today + 4) % 7 + 1⟩

/-- v1.0.0 `fetchCurrentChallenge` net state update. -/
def fetchCurrentChallengeUpdate (r1 : Except ApiError Challenge)
    (r2 : Challenge → Except ApiError (List DailyEntry)) : ClientChallengeState :=
  match r1 with
  | .error _ => ⟨none, []⟩
  | .ok c =>
    match r2 c with
    | .error _ => ⟨none, []⟩
    | .ok es => ⟨some c, es⟩

/-- v1.0.0 `fetchChallenges` state update. -/
def fetchChallengesUpdate (old : List Challenge)
    (r : Except ApiError (List Challenge)) : List Challenge :=
  match r with
  | .ok cs => cs
  | .error _ => old

/-- v1.0.0 `handleAuth` request selection. -/
def handleAuthRequest (mode : AuthMode) (email password : List Char) : AuthRequest :=
  match mode with
  | .register => .registerReq email password
  | .login => .tokenReq email password

/-- v1.0.0 `handleLogout`. -/
def handleLogout (_s : SessionState) : SessionState :=
  ⟨none, none, [], []⟩

end V100

/-- Validity of the entries carried by an `openEdit` event: every entry's
difficulty, when set, lies in 1..5. Entries reach `openEditDay` only from the
backend, whose day-record contract (spec §4.2) rejects difficulties outside
1..5 with `ValidationError`. -/
def entryDifficultiesValid : EditEvent → Prop
  | .openEdit entries _ => ∀ e ∈ entries, ∀ d, e.difficulty = some d → 1 ≤ d ∧ d ≤ 5
  | .clickDifficulty _ => True
  | .clickCompleted _ => True
  | .typeNote _ => True

/-! # Helper lemmas -/

theorem forall_dropWhile_iff (p : Char → Bool) (cs : List Char) :
    (∀ x ∈ cs.dropWhile p, p x) ↔ ∀ x ∈ cs, p x := by
  constructor
  · intro h x hx
    rw [← List.takeWhile_append_dropWhile p cs] at hx
    rcases List.mem_append.mp hx with h1 | h2
    · exact List.mem_takeWhile_imp h1
    · exact h x h2
  · intro h x hx
    exact h x ((List.dropWhile_sublist _).subset hx)

theorem trimList_eq_nil_iff (cs : List Char) :
    trimList cs = [] ↔ ∀ x ∈ cs, isJsSpace x := by
  rw [trimList, List.reverse_eq_nil_iff, List.dropWhile_eq_nil_iff]
  constructor
  · intro h
    exact (forall_dropWhile_iff isJsSpace cs).mp
      (fun y hy => h y (List.mem_reverse.mpr hy))
  · intro h x hx
    exact h x ((List.dropWhile_sublist _).subset (List.mem_reverse.mp hx))

theorem findEntry_some {entries : List DailyEntry} {i : Int} {e : DailyEntry}
    (h : findEntry entries i = some e) : e ∈ entries ∧ e.day_index = i := by
  rw [findEntry] at h
  have hp : (fun e : DailyEntry => decide (e.day_index = i)) e = true :=
    @List.find?_some DailyEntry (fun e => decide (e.day_index = i)) e entries h
  exact ⟨List.mem_of_find?_eq_some h, of_decide_eq_true hp⟩

theorem activeFor_deactivateFor_self (u : Nat) (s : ChallengeStore) :
    activeFor u (deactivateFor u s) = [] := by
  rw [activeFor, deactivateFor, List.filter_eq_nil_iff]
  intro x hx
  rw [List.mem_map] at hx
  obtain ⟨c, _, rfl⟩ := hx
  by_cases h : c.user = u <;> simp [h]

theorem activeFor_deactivateFor_other {u v : Nat} (h : v ≠ u) (s : ChallengeStore) :
    activeFor v (deactivateFor u s) = activeFor v s := by
  induction s with
  | nil => rfl
  | cons c cs ih =>
    by_cases hc : c.user = u
    · have huv : (u == v) = false :=
        beq_eq_false_iff_ne.mpr (fun e => h e.symm)
      simp only [deactivateFor, List.map_cons, activeFor, List.filter_cons] at *
      rw [if_neg (by simp [hc, huv]), if_neg (by simp [hc, huv])]
      exact ih
    · simp only [deactivateFor, List.map_cons, activeFor, List.filter_cons, if_neg hc] at *
      by_cases hv : (c.user == v && c.active) = true
      · rw [if_pos hv, if_pos hv, ih]
      · rw [if_neg hv, if_neg hv]
        exact ih

theorem activeFor_cons (u : Nat) (c : StoredChallenge) (s : ChallengeStore) :
    activeFor u (c :: s) =
      if (c.user == u && c.active) = true then c :: activeFor u s
      else activeFor u s :=
  List.filter_cons

theorem editStep_difficulty_bounded {f : EditFormState}
    (hf : 1 ≤ f.editDifficulty ∧ f.editDifficulty ≤ 5)
    {ev : EditEvent} (hev : entryDifficultiesValid ev) :
    1 ≤ (editStep f ev).editDifficulty ∧ (editStep f ev).editDifficulty ≤ 5 := by
  cases ev with
  | openEdit entries dayIndex =>
    have hev' : ∀ e ∈ entries, ∀ d, e.difficulty = some d → 1 ≤ d ∧ d ≤ 5 := hev
    simp only [editStep, openEditDay]
    cases hfind : findEntry entries dayIndex with
    | none => simp [initForm]
    | some e =>
      have hmem := findEntry_some hfind
      cases hd : e.difficulty with
      | none => simp [jsOrInt, hd]
      | some d =>
        have hbound := hev' e hmem.1 d hd
        have hval : jsOrInt (some d) 1 = d := by
          rw [jsOrInt, if_neg (by omega)]
        simp only [hd, hval]
        exact hbound
  | clickDifficulty i =>
    rcases i with ⟨iv, hiv⟩
    interval_cases iv <;> exact ⟨by norm_num [editStep, difficultyLevels],
      by norm_num [editStep, difficultyLevels]⟩
  | clickCompleted b => exact hf
  | typeNote s => exact hf

theorem foldl_editStep_bounded :
    ∀ (events : List EditEvent) (f : EditFormState),
      (1 ≤ f.editDifficulty ∧ f.editDifficulty ≤ 5) →
      (∀ ev ∈ events, entryDifficultiesValid ev) →
      1 ≤ (events.foldl editStep f).editDifficulty ∧
        (events.foldl editStep f).editDifficulty ≤ 5
  | [], _, hf, _ => hf
  | ev :: evs, f, hf, hev =>
    foldl_editStep_bounded evs (editStep f ev)
      (editStep_difficulty_bounded hf (hev ev (List.mem_cons_self _ _)))
      (fun e he => hev e (List.mem_cons_of_mem _ he))

/-! # Claim theorems -/

/-- C1, counterexample: in the rendered day grid a slot holding an entry with
`completed = false`, difficulty unset and note unset is rendered exactly like
a slot with no entry at all (same border, same X icon, no note marker), so
the render does conflate "no entry yet" with this incomplete entry. -/
theorem c1_render_conflates_empty_and_incomplete :
    renderSlot (findEntry [⟨1, 1, 0, false, none, none, 0⟩] 0) =
      renderSlot (findEntry [] 0) ∧
    findEntry [⟨1, 1, 0, false, none, none, 0⟩] 0 =
      some ⟨1, 1, 0, false, none, none, 0⟩ ∧
    (⟨1, 1, 0, false, none, none, 0⟩ : DailyEntry).completed = false := by
  decide

/-- C1, amended: the composed slot keeps the distinction as data — the slot is
the explicit empty marker `none` exactly when no entry has that day index, and
the empty marker renders as the default border, X icon and no note marker; the
render distinguishes an incomplete entry from the empty slot whenever that
entry carries a truthy difficulty or a truthy note, while an incomplete entry
with neither renders identically to the empty slot. -/
theorem c1_slot_distinction (entries : List DailyEntry) (i : Int) :
    (findEntry entries i = none ↔ ∀ e ∈ entries, e.day_index ≠ i) ∧
    renderSlot none = ⟨false, DayIcon.xmark, false⟩ ∧
    (∀ e : DailyEntry, e.completed = false →
      truthyInt e.difficulty = true ∨ truthyStr e.note = true →
      renderSlot (some e) ≠ renderSlot none) := by
  refine ⟨?_, rfl, ?_⟩
  · rw [findEntry, List.find?_eq_none]
    constructor
    · intro h e he hdi
      exact h e he (by simp [hdi])
    · intro h e he
      simp [h e he]
  · intro e hc htr heq
    rcases htr with hd | hn
    · have hicon := congrArg DayVisual.icon heq
      simp [renderSlot, hc, hd] at hicon
    · have hmark := congrArg DayVisual.noteMarker heq
      simp [renderSlot, hn] at hmark

/-- C1 witness: an incomplete entry with difficulty 2 renders differently from
the empty slot. -/
theorem c1_slot_distinction_witness :
    renderSlot (some ⟨1, 1, 0, false, some 2, none, 0⟩) ≠ renderSlot none :=
  (c1_slot_distinction [] 0).2.2 ⟨1, 1, 0, false, some 2, none, 0⟩ (by decide)
    (Or.inl (by decide))

/-- C3: on a Sunday — e.g. 2025-08-31, day 20331 since the epoch, where
`getDay()` is 0 — the client's `now.getDate() - now.getDay() + 1` yields the
next day 2025-09-01 (day 20332), the Monday of the FOLLOWING ISO week, while
the Monday of the ISO week containing that Sunday is 2025-08-25 (day 20325);
on the other days of that same week (e.g. the Saturday 20330 and the Monday
20325 itself) the two computations agree. -/
theorem c3_sunday_week_start :
    jsGetDay 20331 = 0 ∧
    clientMonday 20331 = 20332 ∧
    isoWeekMonday 20331 = 20325 ∧
    clientMonday 20331 = isoWeekMonday 20331 + 7 ∧
    clientMonday 20330 = isoWeekMonday 20330 ∧
    clientMonday 20325 = isoWeekMonday 20325 := by
  decide

/-- C4: the composed grid is exactly the 7 slots Monday (index 0) through
Sunday (index 6), in order; slot i holds the lookup of the entry list at day
index i, any entry it embeds is drawn from the list and has `day_index = i`,
and the slot is occupied whenever the list has an entry with that day index. -/
theorem c4_compose_week (entries : List DailyEntry) :
    (composeWeek entries).length = 7 ∧
    composeWeek entries =
      [⟨"Mon", 0, findEntry entries 0⟩, ⟨"Tue", 1, findEntry entries 1⟩,
       ⟨"Wed", 2, findEntry entries 2⟩, ⟨"Thu", 3, findEntry entries 3⟩,
       ⟨"Fri", 4, findEntry entries 4⟩, ⟨"Sat", 5, findEntry entries 5⟩,
       ⟨"Sun", 6, findEntry entries 6⟩] ∧
    (∀ i e, findEntry entries i = some e → e ∈ entries ∧ e.day_index = i) ∧
    (∀ i, (∃ e ∈ entries, e.day_index = i) → (findEntry entries i).isSome = true) := by
  refine ⟨rfl, rfl, fun i e h => findEntry_some h, ?_⟩
  intro i hi
  obtain ⟨e, he, hdi⟩ := hi
  rw [findEntry]
  exact List.find?_isSome.mpr ⟨e, he, by simp [hdi]⟩

/-- C4 witness: on a one-entry list with day index 4, slot 4 embeds that
entry. -/
theorem c4_compose_week_witness :
    (⟨9, 3, 4, true, some 2, none, 7⟩ : DailyEntry) ∈
        [(⟨9, 3, 4, true, some 2, none, 7⟩ : DailyEntry)] ∧
      (⟨9, 3, 4, true, some 2, none, 7⟩ : DailyEntry).day_index = 4 :=
  (c4_compose_week [⟨9, 3, 4, true, some 2, none, 7⟩]).2.2.1 4
    ⟨9, 3, 4, true, some 2, none, 7⟩ (by decide)

/-- C5: `createChallenge` applied to an empty title fails with
`ValidationError` returned to the caller (no challenge is inserted, since the
call returns the error instead of an updated store), and the client handler's
guard additionally issues no request at all when the typed title trims to
empty. -/
theorem c5_empty_title_validation :
    (∀ (u : Nat) (wsd : Int) (cid now : Nat) (s : ChallengeStore),
      createChallenge u [] wsd cid now s = .error .validationError) ∧
    (∀ today : Int, clientCreateChallenge [] today = none) :=
  ⟨fun _ _ _ _ _ => rfl, fun _ => rfl⟩

/-- C6: whatever error the current-challenge fetch (or the follow-up days
fetch) fails with — NotFound included — the client resets the state to no
current challenge and no daily entries, and the main view then renders the
no-active-challenge placeholder, not an error view. -/
theorem c6_fetch_failure_not_fatal (err : ApiError)
    (r2 : Challenge → Except ApiError (List DailyEntry)) :
    fetchCurrentChallengeUpdate (.error err) r2 =
      ⟨none, []⟩ ∧
    renderMain (fetchCurrentChallengeUpdate (.error err) r2) =
      .noActiveChallenge :=
  ⟨rfl, rfl⟩

/-- C2: for every user, in every reachable backend state — in particular in
the state immediately after any successful `createChallenge` step, and under
any interleaving of such atomic steps — at most one of that user's challenges
has `active = true`. -/
theorem c2_at_most_one_active {s : ChallengeStore} (hs : Reachable s) (u : Nat) :
    (activeFor u s).length ≤ 1 := by
  induction hs with
  | init => simp [activeFor]
  | @create u' title wsd cid now s0 c s' _ hok ih =>
    rw [createChallenge] at hok
    by_cases ht : title = []
    · rw [if_pos ht] at hok
      exact absurd hok (by simp)
    · rw [if_neg ht] at hok
      simp only [Except.ok.injEq, Prod.mk.injEq] at hok
      obtain ⟨-, hs'⟩ := hok
      subst hs'
      by_cases hu : u = u'
      · subst hu
        rw [activeFor_cons, if_pos (by simp), activeFor_deactivateFor_self]
        simp
      · rw [activeFor_cons, if_neg (by simp [Ne.symm hu]),
          activeFor_deactivateFor_other hu]
        exact ih

/-- C2 witness: the state reached by one `createChallenge` call from the empty
store has at most one active challenge for its user. -/
theorem c2_at_most_one_active_witness :
    (activeFor 7 [⟨1, 7, ['N', 'o'], true, 20325, 100⟩]).length ≤ 1 :=
  c2_at_most_one_active
    (Reachable.create Reachable.init
      (show createChallenge 7 ['N', 'o'] 20325 1 100 [] =
          .ok (⟨1, 7, ['N', 'o'], true, 20325, 100⟩,
            [⟨1, 7, ['N', 'o'], true, 20325, 100⟩]) from rfl))
    7

/-- C7: opening the edit dialog on a day with an existing entry pre-loads the
form from that record — its completed flag, its difficulty whenever one is set
(falling back to 1 when unset), and its note whenever one is set (falling back
to the empty text when unset) — while opening it on a day with no entry
resets the form to not-completed, difficulty 1, and no note. -/
theorem c7_edit_form_preload (entries : List DailyEntry) (i : Int) :
    (∀ e, findEntry entries i = some e →
      (openEditDay entries i).editCompleted = e.completed ∧
      (∀ d, e.difficulty = some d → 1 ≤ d →
        (openEditDay entries i).editDifficulty = d) ∧
      (e.difficulty = none → (openEditDay entries i).editDifficulty = 1) ∧
      (∀ n, e.note = some n → (openEditDay entries i).editNote = n) ∧
      (e.note = none → (openEditDay entries i).editNote = [])) ∧
    (findEntry entries i = none → openEditDay entries i = ⟨false, 1, []⟩) := by
  constructor
  · intro e he
    simp only [openEditDay, he]
    refine ⟨by trivial, ?_, ?_, ?_, ?_⟩
    · intro d hd hd1
      simp [hd, jsOrInt]
      omega
    · intro hd
      simp [hd, jsOrInt]
    · intro n hn
      by_cases hne : n = [] <;> simp [hn, jsOrStr, hne]
    · intro hn
      simp [hn, jsOrStr]
  · intro he
    simp [openEditDay, he, initForm]

/-- C7 witness: opening day 2 on a list whose day-2 entry is completed with
difficulty 3 pre-loads difficulty 3. -/
theorem c7_edit_form_preload_witness :
    (openEditDay [⟨1, 1, 2, true, some 3, some ['o', 'k'], 5⟩] 2).editDifficulty = 3 :=
  ((c7_edit_form_preload [⟨1, 1, 2, true, some 3, some ['o', 'k'], 5⟩] 2).1
    ⟨1, 1, 2, true, some 3, some ['o', 'k'], 5⟩ (by decide)).2.1 3 (by decide)
    (by decide)

/-- C8, counterexample: opening the edit dialog on a fetched entry whose
difficulty is 7 pre-loads the form with 7 (so the five buttons are not the
only way the form difficulty changes), and the subsequent save issues a
request whose difficulty is 7, outside 1..5. -/
theorem c8_out_of_range_difficulty_echoed :
    updateDayEntry (some ⟨1, ['t'], true, 20325, 2⟩)
        (runEdits [.openEdit [⟨1, 1, 0, false, some 7, none, 0⟩] 0]) 0 =
      some ⟨1, 0, ⟨false, some 7, none⟩⟩ ∧
    ¬ (1 ≤ (7 : Int) ∧ (7 : Int) ≤ 5) := by
  decide

/-- C8, amended: every day-upsert body the client builds carries a non-null
difficulty, and whenever every entry handed to the edit dialog has its set
difficulty within 1..5 — which the backend contract guarantees for stored
entries — the difficulty sent lies in 1..5. -/
theorem c8_difficulty_in_range :
    (∀ events : List EditEvent,
      ∃ d : Int, (upsertBody (runEdits events)).difficulty = some d) ∧
    (∀ events : List EditEvent, (∀ ev ∈ events, entryDifficultiesValid ev) →
      ∃ d : Int, (upsertBody (runEdits events)).difficulty = some d ∧
        1 ≤ d ∧ d ≤ 5) := by
  constructor
  · intro events
    exact ⟨(runEdits events).editDifficulty, rfl⟩
  · intro events hev
    obtain ⟨h1, h5⟩ := foldl_editStep_bounded events initForm (by decide) hev
    exact ⟨(runEdits events).editDifficulty, rfl, h1, h5⟩

/-- C8 witness: after clicking the fourth difficulty button, the body carries
a difficulty in 1..5. -/
theorem c8_difficulty_in_range_witness :
    ∃ d : Int,
      (upsertBody (runEdits [EditEvent.clickDifficulty 3])).difficulty = some d ∧
      1 ≤ d ∧ d ≤ 5 :=
  c8_difficulty_in_range.2 [EditEvent.clickDifficulty 3]
    (fun ev hev => by
      rw [List.mem_singleton] at hev
      subst hev
      trivial)

/-- C9: the note field of the day-upsert body is null exactly when the typed
text is empty or consists only of whitespace, is the trimmed text otherwise,
and is never the empty string. -/
theorem c9_note_trimmed (f : EditFormState) :
    ((upsertBody f).note = none ↔ ∀ c ∈ f.editNote, isJsSpace c) ∧
    (trimList f.editNote ≠ [] → (upsertBody f).note = some (trimList f.editNote)) ∧
    (∀ n, (upsertBody f).note = some n → n ≠ []) := by
  have hnote : (upsertBody f).note =
      if trimList f.editNote = [] then none else some (trimList f.editNote) := rfl
  refine ⟨?_, ?_, ?_⟩
  · by_cases h : trimList f.editNote = []
    · rw [hnote, if_pos h]
      exact iff_of_true rfl ((trimList_eq_nil_iff _).mp h)
    · rw [hnote, if_neg h]
      exact iff_of_false (by simp) (fun hall => h ((trimList_eq_nil_iff _).mpr hall))
  · intro h
    rw [hnote, if_neg h]
  · intro n hn
    rw [hnote] at hn
    by_cases h : trimList f.editNote = []
    · rw [if_pos h] at hn
      simp at hn
    · rw [if_neg h] at hn
      injection hn with h2
      rw [← h2]
      exact h

/-- C9 witness: the note text `" hi "` is sent as its trimmed text. -/
theorem c9_note_trimmed_witness :
    (upsertBody ⟨false, 1, [' ', 'h', 'i', ' ']⟩).note =
      some (trimList [' ', 'h', 'i', ' ']) :=
  (c9_note_trimmed ⟨false, 1, [' ', 'h', 'i', ' ']⟩).2.1 (by decide)

/-- C10: the v1.0.0 client and the v1.1.0 client are behaviorally equivalent
in all state and API logic — authentication request selection, challenge
creation (guard and Monday computation included), day-upsert requests,
edit-form pre-loading, the fetch handlers, and logout compute identical
results on every input — and the two revisions differ in the version string. -/
theorem c10_revisions_equivalent :
    (∀ mode email password,
      V100.handleAuthRequest mode email password = handleAuthRequest mode email password) ∧
    (∀ title today,
      V100.clientCreateChallenge title today = clientCreateChallenge title today) ∧
    (∀ cur f dayIndex,
      V100.updateDayEntry cur f dayIndex = updateDayEntry cur f dayIndex) ∧
    (∀ entries dayIndex,
      V100.openEditDay entries dayIndex = openEditDay entries dayIndex) ∧
    (∀ r1 r2,
      V100.fetchCurrentChallengeUpdate r1 r2 = fetchCurrentChallengeUpdate r1 r2) ∧
    (∀ old r, V100.fetchChallengesUpdate old r = fetchChallengesUpdate old r) ∧
    (∀ s, V100.handleLogout s = handleLogout s) ∧
    V100.appVersion = "1.0.0" ∧ appVersion = "1.1.0" :=
  ⟨fun _ _ _ => rfl, fun _ _ => rfl, fun _ _ _ => rfl, fun _ _ => rfl,
    fun _ _ => rfl, fun _ _ => rfl, fun _ => rfl, rfl, rfl⟩

end WeeklyChallenges
